import Mathlib

/-!
Verification of the Notez extension coordination layer.

This file gives a shallow embedding of the background service worker
(the coordinator), the dual persistence backend (remote API with
transparent fallback to the device-local store), and the page capture
agent of the content script, and proves or refutes the specified
properties.

Modelling conventions:
* ISO-8601 timestamp strings are modelled as `Nat` (the encoding of
  dates into ISO strings is monotone, so comparisons are preserved).
* A `fetch` to the remote API is modelled by a `RemoteOutcome`
  parameter: either the parsed body of a 2xx response, or a failure
  (network error or non-2xx status, both of which throw in the source).
* chrome.storage.local availability is modelled by a `localFail` flag;
  a failing storage call throws, which the embedding returns as
  `Except.error`.
* `generateId()` (a fresh high-entropy random id) is modelled by a
  `freshId : String` parameter.
-/

namespace Notez

/-- Outcome of an attempted remote (fetch) API call: the parsed response
body of an ok (2xx) reply, or a failure string covering both a network
error and a non-2xx status (the source throws in both cases). -/
inductive RemoteOutcome (α : Type) where
  | ok : α → RemoteOutcome α
  | fail : String → RemoteOutcome α
  deriving Repr, DecidableEq

/-- The `source` object attached to page-derived notes. -/
structure Source where
  url : String
  title : String
  domain : Option String
  capturedAt : Option Nat
  deriving Repr, DecidableEq

/-- The Note shape. Fields that the source may leave `undefined` before
first persistence (`id`, `createdAt`, `updatedAt`, `source`) are
`Option`s; a JS falsy check on them is `Option.isNone` here. -/
structure Note where
  id : Option String
  title : String
  content : String
  tags : List String
  createdAt : Option Nat
  updatedAt : Option Nat
  source : Option Source
  deriving Repr, DecidableEq

/-- The payload of an ADD_SELECTION_TO_PAGE_NOTE request, built by the
content script from the live selection and page metadata. -/
structure SelectionData where
  selectedText : String
  url : String
  title : String
  domain : String
  deriving Repr, DecidableEq

/-- The double-quote character, written by code point to keep character
literals simple. -/
def quoteChar : Char := Char.ofNat 34

/-- The single-quote character. -/
def aposChar : Char := Char.ofNat 39

/-- Global single-character replacement on a character list: the
semantics of JS `String.prototype.replace` with a global regex whose
pattern is the single character `c` (each occurrence is replaced once,
left to right; replacements are not rescanned). -/
def replaceChar (c : Char) (rep : List Char) : List Char → List Char
  | [] => []
  | x :: xs => (if x = c then rep else [x]) ++ replaceChar c rep xs

/-- Replacement text for the ampersand. -/
def ampEnt : List Char := ['&', 'a', 'm', 'p', ';']

/-- Replacement text for the less-than sign. -/
def ltEnt : List Char := ['&', 'l', 't', ';']

/-- Replacement text for the greater-than sign. -/
def gtEnt : List Char := ['&', 'g', 't', ';']

/-- Replacement text for the double quote. -/
def quotEnt : List Char := ['&', 'q', 'u', 'o', 't', ';']

/-- Replacement text for the single quote. -/
def aposEnt : List Char := ['&', '#', '0', '3', '9', ';']

/-- `escapeHtml` (background script, lines 169-180): five chained global
single-character replacements, applied in the source's order
(`&`, `<`, `>`, `"`, then the single quote). -/
def escapeList (l : List Char) : List Char :=
  replaceChar aposChar aposEnt
    (replaceChar quoteChar quotEnt
      (replaceChar '>' gtEnt
        (replaceChar '<' ltEnt
          (replaceChar '&' ampEnt l))))

/-- `escapeHtml` on strings. -/
def escapeHtml (text : String) : String :=
  String.mk (escapeList text.data)

/-- The per-character effect of the chained replacements: each special
character becomes its entity, every other character is unchanged. -/
def escChar (x : Char) : List Char :=
  if x = '&' then ampEnt
  else if x = '<' then ltEnt
  else if x = '>' then gtEnt
  else if x = quoteChar then quotEnt
  else if x = aposChar then aposEnt
  else [x]

/-- Character-wise escaping of a whole list. -/
def escAll : List Char → List Char
  | [] => []
  | x :: xs => escChar x ++ escAll xs

/-- `true` iff the string contains none of the raw markup-significant
characters `<`, `>`, `"`. -/
def noRawMarkup (s : String) : Bool :=
  s.data.all fun c => !(c == '<') && !(c == '>') && !(c == quoteChar)

/-- JS `Array.prototype.findIndex` (an index, or none when no element
matches). -/
def jsFindIndex (p : α → Bool) : List α → Option Nat
  | [] => none
  | a :: as => if p a then some 0 else (jsFindIndex p as).map (· + 1)

/-- `sub` is a prefix of `l` (character comparison by `==`). -/
def startsWithL : List Char → List Char → Bool
  | _, [] => true
  | [], _ :: _ => false
  | a :: as, b :: bs => (a == b) && startsWithL as bs

/-- `sub` occurs contiguously inside `l`. -/
def hasSubstr : List Char → List Char → Bool
  | [], sub => sub.isEmpty
  | a :: as, sub => startsWithL (a :: as) sub || hasSubstr as sub

/-- JS `String.prototype.includes`. -/
def jsIncludes (s sub : String) : Bool :=
  hasSubstr s.data sub.data

/-- The id/timestamp normalisation that both `saveNote` (lines 188-196)
and `saveNoteToStorage` (lines 228-236) perform on the incoming note
before persisting: generate an id when absent, set `updatedAt` to now,
and set `createdAt` to now only when it is absent. -/
def stampNote (now : Nat) (freshId : String) (note : Note) : Note :=
  let n1 := if note.id.isNone then { note with id := some freshId } else note
  let n2 := { n1 with updatedAt := some now }
  if n2.createdAt.isNone then { n2 with createdAt := some now } else n2

/-- `saveNoteToStorage` (lines 223-253): read the local collection,
normalise the note, then upsert — replace in place when an entry with
the same id exists, otherwise `unshift` the note to the front. A storage
failure is rethrown (`Except.error`). -/
def saveNoteToStorage (now : Nat) (freshId : String) (localFail : Bool)
    (note : Note) (store : List Note) : Except String (Note × List Note) :=
  if localFail then Except.error "storage error" else
  let n := stampNote now freshId note
  match jsFindIndex (fun m => m.id == n.id) store with
  | some i => Except.ok (n, store.set i n)
  | none => Except.ok (n, n :: store)

/-- `saveNote` (lines 183-221): normalise the note, attempt the remote
API (PUT when the note has an id, POST otherwise; on ok the parsed
response body is returned and the local store is untouched), and fall
back to `saveNoteToStorage` on any remote failure. -/
def saveNote (now : Nat) (freshId : String) (remote : RemoteOutcome Note)
    (localFail : Bool) (note : Note) (store : List Note) :
    Except String (Note × List Note) :=
  let n := stampNote now freshId note
  match remote with
  | RemoteOutcome.ok apiNote => Except.ok (apiNote, store)
  | RemoteOutcome.fail _ => saveNoteToStorage now freshId localFail n store

/-- `getNotes` (lines 255-279): attempt the remote API; on any remote
failure fall back to the local collection; a local storage failure is
caught and yields the empty list (still a success). -/
def getNotes (remote : RemoteOutcome (List Note)) (localFail : Bool)
    (store : List Note) : Except String (List Note) :=
  match remote with
  | RemoteOutcome.ok apiNotes => Except.ok apiNotes
  | RemoteOutcome.fail _ =>
      if localFail then Except.ok [] else Except.ok store

/-- `updateNote` (lines 281-284): delegates to `saveNote` with the
payload's id overridden by the request's `noteId`. -/
def updateNote (now : Nat) (freshId : String) (remote : RemoteOutcome Note)
    (localFail : Bool) (noteId : Option String) (updatedNote : Note)
    (store : List Note) : Except String (Note × List Note) :=
  saveNote now freshId remote localFail { updatedNote with id := noteId } store

/-- `deleteNote` (lines 286-316): attempt the remote DELETE; on remote
failure filter the note out of the local collection; a local storage
failure is rethrown. -/
def deleteNote (remote : RemoteOutcome Unit) (localFail : Bool)
    (noteId : String) (store : List Note) : Except String (List Note) :=
  match remote with
  | RemoteOutcome.ok _ => Except.ok store
  | RemoteOutcome.fail _ =>
      if localFail then Except.error "storage error"
      else Except.ok (store.filter fun n => !(n.id == some noteId))

/-- The local search predicate of `searchNotes` (lines 338-342):
case-insensitive substring match on title, content, or any tag. -/
def matchesQuery (q : String) (n : Note) : Bool :=
  jsIncludes n.title.toLower q.toLower ||
  jsIncludes n.content.toLower q.toLower ||
  n.tags.any fun tag => jsIncludes tag.toLower q.toLower

/-- `searchNotes` (lines 318-349): attempt the remote search; on remote
failure fetch the notes through `getNotes` (which has its own fallback)
and filter them locally; any failure in the local branch is caught and
yields the empty list. -/
def searchNotes (remoteSearch : RemoteOutcome (List Note))
    (remoteGet : RemoteOutcome (List Note)) (localFail : Bool)
    (q : String) (store : List Note) : Except String (List Note) :=
  match remoteSearch with
  | RemoteOutcome.ok results => Except.ok results
  | RemoteOutcome.fail _ =>
      match getNotes remoteGet localFail store with
      | Except.ok notes => Except.ok (notes.filter (matchesQuery q))
      | Except.error _ => Except.ok []

/-- The CHECK_URL_ENABLED handler (lines 116-120): the source ignores
the request's url and any stored url-pattern settings and always
resolves `{ enabled: true }`. -/
def checkUrlEnabled (_url : String) : Except String Bool :=
  Except.ok true

/-- The page-note identity test of `handleAddSelectionToPageNote`
(lines 419-425): the note has a `source` whose url equals the request
url, and its tags contain "web-page". -/
def isPageNoteFor (url : String) (n : Note) : Bool :=
  match n.source with
  | some s => s.url == url && n.tags.contains "web-page"
  | none => false

/-- The timestamped selection block appended to a page note's content
(lines 430-435). `Date.toLocaleString()` is modelled by the decimal
rendering of the clock. -/
def selectionBlock (now : Nat) (selectedText : String) : String :=
  "\n<hr>\n<h3>📝 Selected Text (" ++ toString now ++ ")</h3>\n<blockquote>\"" ++
    escapeHtml selectedText ++
    "\"</blockquote>\n<p><em>Add your notes about this selection...</em></p>\n"

/-- The fixed page header of a freshly created page note (lines
457-460), with the externally sourced title and url embedded only
through `escapeHtml`. -/
def pageSeed (d : SelectionData) : String :=
  "<h1>" ++ escapeHtml d.title ++
    "</h1>\n<p><strong>URL:</strong> <a href=\"" ++ escapeHtml d.url ++
    "\" target=\"_blank\">" ++ escapeHtml d.url ++
    "</a></p>\n<p></p>\n<p>Add your main page notes here...</p>\n"

/-- Content of a freshly created page note: header followed by the
first selection block (line 461). -/
def newPageNoteContent (now : Nat) (d : SelectionData) : String :=
  pageSeed d ++ selectionBlock now d.selectedText

/-- The note object created for a page on its first capture
(lines 454-471). -/
def newPageNote (now : Nat) (freshId : String) (d : SelectionData) : Note :=
  { id := some freshId
    title := "Page Notes: " ++ escapeHtml d.title
    content := newPageNoteContent now d
    createdAt := some now
    updatedAt := some now
    tags := ["web-page", d.domain]
    source := some { url := d.url, title := d.title,
                     domain := some d.domain, capturedAt := some now } }

/-- The note produced by appending a selection block to an existing page
note (lines 441-447): content extended, `updatedAt` refreshed,
everything else spread from the existing note. -/
def appendSelection (now : Nat) (d : SelectionData) (ex : Note) : Note :=
  { ex with content := ex.content ++ selectionBlock now d.selectedText
            updatedAt := some now }

/-- `handleAddSelectionToPageNote` (lines 410-481): fetch all notes via
the backend, look for an existing page note for the url, then either
append the escaped selection block and update, or create a new page
note seeded with the escaped title/url plus the first block. -/
def handleAddSelectionToPageNote (now : Nat) (freshId : String)
    (remoteGet : RemoteOutcome (List Note)) (remoteSave : RemoteOutcome Note)
    (localFail : Bool) (d : SelectionData) (store : List Note) :
    Except String (Note × List Note) :=
  match getNotes remoteGet localFail store with
  | Except.error e => Except.error e
  | Except.ok notes =>
      match notes.find? (isPageNoteFor d.url) with
      | some existingNote =>
          updateNote now freshId remoteSave localFail existingNote.id
            (appendSelection now d existingNote) store
      | none =>
          saveNote now freshId remoteSave localFail
            (newPageNote now freshId d) store

/-- The message types the runtime listener can receive
(lines 88-126): the seven cases of the switch, plus `settingsUpdated`
(sent by the options page per the repository README) and a catch-all
`unknown` type, both of which reach the switch's `default`. -/
inductive Msg where
  | save : Note → Msg
  | update : Option String → Note → Msg
  | addSelection : SelectionData → Msg
  | getAll : Msg
  | delete : String → Msg
  | search : String → Msg
  | checkUrl : String → Msg
  | settingsUpdated : Msg
  | unknown : String → Msg
  deriving Repr, DecidableEq

/-- The `data` carried by a successful reply. -/
inductive RespData where
  | note : Note → RespData
  | notes : List Note → RespData
  | deleted : String → RespData
  | urlEnabled : Bool → RespData
  deriving Repr, DecidableEq

/-- A reply sent over the channel: either the asynchronous
`sendResponse` driven by the handler's promise — `{success:true, data}`
on resolution, `{success:false, error}` on rejection (the listener's
`.catch` converts every handler exception, lines 130-135) — or the
synchronous `{success:false, error:"Unknown message type"}` of the
`default` branch (lines 122-125), after which the listener returns
`false` so no reply is left pending. -/
inductive Reply where
  | async : Except String RespData → Reply
  | syncUnknown : Reply
  deriving Repr

/-- The nondeterministic environment of one handled request: the clock,
the generated id, the outcome of each possible remote call, and local
storage health. -/
structure Env where
  now : Nat
  freshId : String
  remoteNote : RemoteOutcome Note
  remoteList : RemoteOutcome (List Note)
  remoteSearch : RemoteOutcome (List Note)
  remoteDelete : RemoteOutcome Unit
  localFail : Bool
  deriving Repr, DecidableEq

/-- Wraps a handler result as the asynchronous reply, pairing it with
the local store it leaves behind (an erroring handler has not committed
a local write). -/
def asyncReply (f : α → RespData) (store : List Note) :
    Except String (α × List Note) → Reply × List Note
  | Except.ok (a, store2) => (Reply.async (Except.ok (f a)), store2)
  | Except.error e => (Reply.async (Except.error e), store)

/-- The runtime message listener (lines 88-138): route each enumerated
type to its handler and answer asynchronously; everything else falls to
the `default` branch and gets the synchronous failure reply. -/
def dispatch (env : Env) (msg : Msg) (store : List Note) :
    Reply × List Note :=
  match msg with
  | Msg.save data =>
      asyncReply RespData.note store
        (saveNote env.now env.freshId env.remoteNote env.localFail data store)
  | Msg.update noteId data =>
      asyncReply RespData.note store
        (updateNote env.now env.freshId env.remoteNote env.localFail
          noteId data store)
  | Msg.addSelection d =>
      asyncReply RespData.note store
        (handleAddSelectionToPageNote env.now env.freshId env.remoteList
          env.remoteNote env.localFail d store)
  | Msg.getAll =>
      match getNotes env.remoteList env.localFail store with
      | Except.ok ns => (Reply.async (Except.ok (RespData.notes ns)), store)
      | Except.error e => (Reply.async (Except.error e), store)
  | Msg.delete noteId =>
      match deleteNote env.remoteDelete env.localFail noteId store with
      | Except.ok store2 =>
          (Reply.async (Except.ok (RespData.deleted noteId)), store2)
      | Except.error e => (Reply.async (Except.error e), store)
  | Msg.search q =>
      match searchNotes env.remoteSearch env.remoteList env.localFail q store with
      | Except.ok ns => (Reply.async (Except.ok (RespData.notes ns)), store)
      | Except.error e => (Reply.async (Except.error e), store)
  | Msg.checkUrl url =>
      match checkUrlEnabled url with
      | Except.ok b => (Reply.async (Except.ok (RespData.urlEnabled b)), store)
      | Except.error e => (Reply.async (Except.error e), store)
  | Msg.settingsUpdated => (Reply.syncUnknown, store)
  | Msg.unknown _ => (Reply.syncUnknown, store)

/-- The content script's reaction to the CHECK_URL_ENABLED reply
(content.js lines 102-112): a successful reply installs its `enabled`
value; a failed or malformed reply defaults to enabled. -/
def agentEnabledAfterCheck : Reply → Bool
  | Reply.async (Except.ok (RespData.urlEnabled b)) => b
  | _ => true

/-- State of the capture agent that the dispatch path touches
(content.js). -/
structure AgentState where
  tooltipVisible : Bool
  storedText : String
  deriving Repr, DecidableEq

/-- How the wait for the coordinator's reply to a capture ends on the
agent side: a `{success:true}` reply, any other reply, the agent's 5 s
timeout, or a channel error surfaced through `runtime.lastError`. -/
inductive DispatchOutcome where
  | replyOk : DispatchOutcome
  | replyFail : DispatchOutcome
  | timeout : DispatchOutcome
  | channelError : String → DispatchOutcome
  deriving Repr, DecidableEq

/-- The status affordances shown during a capture. -/
inductive CaptureNotif where
  | noTextWarning : CaptureNotif
  | notLoaded : CaptureNotif
  | contextInvalid : CaptureNotif
  | adding : CaptureNotif
  | added : CaptureNotif
  | failed : CaptureNotif
  | unreachable : CaptureNotif
  | timedOut : CaptureNotif
  | genericError : String → CaptureNotif
  deriving Repr, DecidableEq

/-- Result of one run of the agent's `addSelectionToPageNote`. -/
structure CaptureResult where
  tooltipVisible : Bool
  storedText : String
  nativeSelection : String
  sent : Bool
  payload : Option SelectionData
  notifs : List CaptureNotif
  deriving Repr, DecidableEq

/-- `hideSelectionTooltip` (content.js lines 492-521): removes the
tooltip and clears the remembered selection, but only when a tooltip is
present. -/
def hideSelectionTooltip (tooltipVisible : Bool) (storedText : String) :
    Bool × String :=
  if tooltipVisible then (false, "") else (tooltipVisible, storedText)

/-- The notification chosen by the try/catch around the capture
dispatch (content.js lines 600-616). -/
def captureOutcomeNotif : DispatchOutcome → CaptureNotif
  | DispatchOutcome.replyOk => CaptureNotif.added
  | DispatchOutcome.replyFail => CaptureNotif.failed
  | DispatchOutcome.timeout => CaptureNotif.timedOut
  | DispatchOutcome.channelError _ => CaptureNotif.unreachable

/-- The agent's `addSelectionToPageNote` (content.js lines 524-630).
`nativeSel` is the current trimmed `window.getSelection()` text. The
three early returns (no text, no chrome APIs, invalidated context) hide
the tooltip and send nothing; the dispatch path builds the payload,
sends it, reacts to the outcome, and its `finally` block
unconditionally hides the tooltip and clears the native selection. -/
def addSelectionToPageNoteAgent (st : AgentState) (nativeSel : String)
    (pageUrl pageTitle pageDomain : String)
    (chromeAvailable contextValid : Bool)
    (outcome : DispatchOutcome) : CaptureResult :=
  let text := if nativeSel == "" then st.storedText else nativeSel
  if nativeSel == "" && st.storedText == "" then
    let (tv, sx) := hideSelectionTooltip st.tooltipVisible text
    { tooltipVisible := tv, storedText := sx, nativeSelection := nativeSel
      sent := false, payload := none, notifs := [CaptureNotif.noTextWarning] }
  else if !chromeAvailable then
    let (tv, sx) := hideSelectionTooltip st.tooltipVisible text
    { tooltipVisible := tv, storedText := sx, nativeSelection := nativeSel
      sent := false, payload := none, notifs := [CaptureNotif.notLoaded] }
  else if !contextValid then
    let (tv, sx) := hideSelectionTooltip st.tooltipVisible text
    { tooltipVisible := tv, storedText := sx, nativeSelection := nativeSel
      sent := false, payload := none, notifs := [CaptureNotif.contextInvalid] }
  else
    let payload : SelectionData :=
      { selectedText := text, url := pageUrl, title := pageTitle
        domain := pageDomain }
    let (tv, sx) := hideSelectionTooltip st.tooltipVisible text
    { tooltipVisible := tv, storedText := sx, nativeSelection := ""
      sent := true, payload := some payload
      notifs := [CaptureNotif.adding, captureOutcomeNotif outcome] }

/-- `createNote` of the web app's localStorage hook
(useNotesAPI.ts lines 49-62): a fresh UUID, equal timestamps, empty
tags, prepended to the collection. -/
def webCreateNote (now : Nat) (uuid : String) (title content : String)
    (notes : List Note) : Note × List Note :=
  let newNote : Note :=
    { id := some uuid, title := title, content := content, tags := []
      createdAt := some now, updatedAt := some now, source := none }
  (newNote, newNote :: notes)

/-- `updateNote` of the web app's localStorage hook
(useNotesAPI.ts lines 64-72): map over the collection, merging the
partial title/content/tags updates and refreshing `updatedAt` on the
matching id only. -/
def webUpdateNote (now : Nat) (id : String) (title? content? : Option String)
    (tags? : Option (List String)) (notes : List Note) : List Note :=
  notes.map fun n =>
    if n.id == some id then
      { n with title := title?.getD n.title
               content := content?.getD n.content
               tags := tags?.getD n.tags
               updatedAt := some now }
    else n

/-- A note list is sorted by `updatedAt` in descending order (missing
timestamps read as 0). -/
def sortedByUpdatedAtDesc : List Note → Bool
  | [] => true
  | [_] => true
  | a :: b :: rest =>
      decide (b.updatedAt.getD 0 ≤ a.updatedAt.getD 0) &&
        sortedByUpdatedAtDesc (b :: rest)

/-- Well-formedness of a persisted note: it has an id and its
timestamps satisfy `createdAt ≤ updatedAt`. -/
def NoteWF (n : Note) : Prop :=
  n.id.isSome ∧ ∃ c u, n.createdAt = some c ∧ n.updatedAt = some u ∧ c ≤ u

/-- Well-formedness of a whole store. -/
def StoreWF (s : List Note) : Prop := ∀ n ∈ s, NoteWF n

/-- A concrete stored note used to exercise the operations. -/
def sampleNote : Note :=
  { id := some "s1", title := "Sample", content := "c", tags := []
    createdAt := some 1, updatedAt := some 1, source := none }

/-- A concrete request environment: remote unavailable, local storage
healthy. -/
def sampleEnv : Env :=
  { now := 7, freshId := "f0"
    remoteNote := RemoteOutcome.fail "net"
    remoteList := RemoteOutcome.fail "net"
    remoteSearch := RemoteOutcome.fail "net"
    remoteDelete := RemoteOutcome.fail "net"
    localFail := false }

/-- The capture payload of the specification's running example. -/
def exampleCapture : SelectionData :=
  { selectedText := "Hello <b>world</b>"
    url := "https://example.com/a"
    title := "Example"
    domain := "example.com" }

/-- A second capture payload for the same page. -/
def exampleCapture2 : SelectionData :=
  { selectedText := "More text"
    url := "https://example.com/a"
    title := "Example"
    domain := "example.com" }

/-- An UPDATE_NOTE payload whose `createdAt` (100) lies in the future of
the write clock (5). -/
def futurePayload : Note :=
  { id := some "n1", title := "T", content := "C", tags := []
    createdAt := some 100, updatedAt := some 90, source := none }

/-- The note such an update stores: `createdAt` copied verbatim from the
payload, `updatedAt` stamped to the write time 5. -/
def futureStored : Note :=
  { id := some "n1", title := "T", content := "C", tags := []
    createdAt := some 100, updatedAt := some 5, source := none }

/-- A draft note (no id, no timestamps) as a SAVE_NOTE payload. -/
def draftA : Note :=
  { id := none, title := "A", content := "ca", tags := []
    createdAt := none, updatedAt := none, source := none }

/-- A second draft note. -/
def draftB : Note :=
  { id := none, title := "B", content := "cb", tags := []
    createdAt := none, updatedAt := none, source := none }

/-- The UPDATE_NOTE payload editing note "a": the previously persisted
note with new content, as the UI echoes it back. -/
def editA : Note :=
  { id := some "a", title := "A", content := "edited", tags := []
    createdAt := some 1, updatedAt := some 1, source := none }

/-- Projects the store out of an operation result (empty on error). -/
def storeOf (r : Except String (Note × List Note)) : List Note :=
  match r with
  | Except.ok p => p.2
  | Except.error _ => []

/-- The local store after creating note "a" at time 1, note "b" at
time 2, and editing note "a" at time 3, all while the remote API is
unreachable. -/
def c8Store : List Note :=
  storeOf (updateNote 3 "c" (RemoteOutcome.fail "net") false (some "a") editA
    (storeOf (saveNote 2 "b" (RemoteOutcome.fail "net") false draftB
      (storeOf (saveNote 1 "a" (RemoteOutcome.fail "net") false draftA [])))))

/-- A draft note for the C6 witness. -/
def wDraft : Note :=
  { id := none, title := "W", content := "w", tags := []
    createdAt := none, updatedAt := none, source := none }

theorem replaceChar_append (c : Char) (rep l1 l2 : List Char) :
    replaceChar c rep (l1 ++ l2) =
      replaceChar c rep l1 ++ replaceChar c rep l2 := by
  induction l1 with
  | nil => rfl
  | cons x xs ih => simp [replaceChar, ih]

theorem replaceChar_of_not_mem {c : Char} {l : List Char} (rep : List Char)
    (h : c ∉ l) : replaceChar c rep l = l := by
  induction l with
  | nil => rfl
  | cons x xs ih =>
      have hx : ¬x = c := fun hxc => h (hxc ▸ List.mem_cons_self x xs)
      simp only [replaceChar, if_neg hx, List.singleton_append, List.cons.injEq,
        true_and]
      exact ih fun hm => h (List.mem_cons_of_mem x hm)

theorem escapeList_append (l1 l2 : List Char) :
    escapeList (l1 ++ l2) = escapeList l1 ++ escapeList l2 := by
  simp only [escapeList, replaceChar_append]

theorem escapeList_singleton (x : Char) : escapeList [x] = escChar x := by
  by_cases h1 : x = '&'
  · subst h1; rfl
  by_cases h2 : x = '<'
  · subst h2; rfl
  by_cases h3 : x = '>'
  · subst h3; rfl
  by_cases h4 : x = quoteChar
  · subst h4; rfl
  by_cases h5 : x = aposChar
  · subst h5; rfl
  simp [escapeList, replaceChar, escChar, h1, h2, h3, h4, h5]

theorem escapeList_eq_escAll (l : List Char) : escapeList l = escAll l := by
  induction l with
  | nil => rfl
  | cons x xs ih =>
      have : escapeList (x :: xs) = escapeList [x] ++ escapeList xs :=
        escapeList_append [x] xs
      rw [this, escapeList_singleton, ih, escAll]

theorem escChar_safe (x : Char) :
    (escChar x).all
      (fun c => !(c == '<') && !(c == '>') && !(c == quoteChar)) = true := by
  by_cases h1 : x = '&'
  · subst h1; decide
  by_cases h2 : x = '<'
  · subst h2; decide
  by_cases h3 : x = '>'
  · subst h3; decide
  by_cases h4 : x = quoteChar
  · subst h4; decide
  by_cases h5 : x = aposChar
  · subst h5; decide
  simp [escChar, h1, h2, h3, h4, h5]

theorem escAll_safe (l : List Char) :
    (escAll l).all
      (fun c => !(c == '<') && !(c == '>') && !(c == quoteChar)) = true := by
  induction l with
  | nil => rfl
  | cons x xs ih => simp [escAll, List.all_append, escChar_safe x, ih]

theorem noRawMarkup_escapeHtml (t : String) :
    noRawMarkup (escapeHtml t) = true := by
  show ((String.mk (escapeList t.data)).data.all _) = true
  rw [escapeList_eq_escAll]
  exact escAll_safe t.data

/-- Claim C3: every externally sourced string that a capture embeds into
note content passes through `escapeHtml`, which rewrites each of the
five special characters to its entity and leaves every other character
unchanged (`escAll`), so its output contains no raw `<`, `>` or `"`;
the selection block and the new page note embed the selection text,
page title and url only in that escaped form, and the specification's
example input escapes as stated. -/
theorem c3_external_text_escaped (t : String) (now : Nat) (freshId : String)
    (d : SelectionData) :
    (escapeHtml t).data = escAll t.data ∧
    noRawMarkup (escapeHtml t) = true ∧
    selectionBlock now t =
      "\n<hr>\n<h3>📝 Selected Text (" ++ toString now ++
        ")</h3>\n<blockquote>\"" ++ escapeHtml t ++
        "\"</blockquote>\n<p><em>Add your notes about this selection...</em></p>\n" ∧
    (newPageNote now freshId d).content =
      "<h1>" ++ escapeHtml d.title ++
        "</h1>\n<p><strong>URL:</strong> <a href=\"" ++ escapeHtml d.url ++
        "\" target=\"_blank\">" ++ escapeHtml d.url ++
        "</a></p>\n<p></p>\n<p>Add your main page notes here...</p>\n" ++
        selectionBlock now d.selectedText ∧
    escapeHtml "Hello <b>world</b>" = "Hello &lt;b&gt;world&lt;/b&gt;" := by
  refine ⟨?_, noRawMarkup_escapeHtml t, rfl, rfl, by decide⟩
  show escapeList t.data = escAll t.data
  exact escapeList_eq_escAll t.data

theorem stampNote_stampNote (now : Nat) (fid : String) (n : Note) :
    stampNote now fid (stampNote now fid n) = stampNote now fid n := by
  rcases hid : n.id with _ | i <;> rcases hc : n.createdAt with _ | c <;>
    simp [stampNote, hid, hc]

theorem saveNote_fail (now : Nat) (fid e : String) (lf : Bool) (note : Note)
    (store : List Note) :
    saveNote now fid (RemoteOutcome.fail e) lf note store =
      saveNoteToStorage now fid lf note store := by
  simp only [saveNote, saveNoteToStorage, stampNote_stampNote]

/-- The claim of C4, taken at GET_NOTES with the remote unreachable and
the local storage read failing: the operation does not propagate the
local failure — the catch swallows it and reports success with an empty
list. -/
theorem c4_counterexample :
    getNotes (RemoteOutcome.fail "network down") true [sampleNote] =
      Except.ok [] := rfl

/-- Claim C4 as amended: every operation attempts the remote store
first, and any remote failure falls back transparently to the local
store; a local-store failure is propagated as a genuine failure for
save, update and delete, but for get-all and search it is swallowed —
the catch returns the empty list as a success. -/
theorem c4_amended (now : Nat) (fid e : String) (lf : Bool)
    (note apiNote : Note) (ns : List Note) (noteId q : String)
    (store : List Note) :
    saveNote now fid (RemoteOutcome.ok apiNote) lf note store =
      Except.ok (apiNote, store) ∧
    saveNote now fid (RemoteOutcome.fail e) lf note store =
      saveNoteToStorage now fid lf note store ∧
    saveNoteToStorage now fid true note store =
      Except.error "storage error" ∧
    updateNote now fid (RemoteOutcome.fail e) true (some noteId) note store =
      Except.error "storage error" ∧
    deleteNote (RemoteOutcome.ok ()) lf noteId store = Except.ok store ∧
    deleteNote (RemoteOutcome.fail e) false noteId store =
      Except.ok (store.filter fun n => !(n.id == some noteId)) ∧
    deleteNote (RemoteOutcome.fail e) true noteId store =
      Except.error "storage error" ∧
    getNotes (RemoteOutcome.ok ns) lf store = Except.ok ns ∧
    getNotes (RemoteOutcome.fail e) false store = Except.ok store ∧
    getNotes (RemoteOutcome.fail e) true store = Except.ok [] ∧
    searchNotes (RemoteOutcome.ok ns) (RemoteOutcome.fail e) lf q store =
      Except.ok ns ∧
    searchNotes (RemoteOutcome.fail e) (RemoteOutcome.fail e) false q store =
      Except.ok (store.filter (matchesQuery q)) ∧
    searchNotes (RemoteOutcome.fail e) (RemoteOutcome.fail e) true q store =
      Except.ok [] :=
  ⟨rfl, saveNote_fail now fid e lf note store, rfl, rfl, rfl, rfl, rfl, rfl,
    rfl, rfl, rfl, rfl, rfl⟩

/-- Claim C7 at the failing input: the coordinator's CHECK_URL_ENABLED
handler ignores the url and every configured url pattern and always
answers `{enabled:true}`, and the agent installs that answer, so the
agent proceeds to initialise on every url — including urls the
user-configured deny patterns (default pattern list `['localhost']` per
the repository's documented options page) are meant to exclude. -/
theorem c7_check_url_always_enabled (env : Env) (url : String)
    (store : List Note) :
    checkUrlEnabled url = Except.ok true ∧
    dispatch env (Msg.checkUrl url) store =
      (Reply.async (Except.ok (RespData.urlEnabled true)), store) ∧
    agentEnabledAfterCheck (dispatch env (Msg.checkUrl url) store).1 = true :=
  ⟨rfl, rfl, rfl⟩

/-- The claim of C8 at a concrete reachable store: after creating note
"a" at time 1, creating note "b" at time 2 and updating note "a" at
time 3 (remote unreachable throughout), the local store lists note "b"
(updatedAt 2) before note "a" (updatedAt 3); the fallback GET_NOTES
returns exactly that list, which is not sorted by updatedAt
descending. -/
theorem c8_counterexample :
    getNotes (RemoteOutcome.fail "net") false c8Store = Except.ok c8Store ∧
    sortedByUpdatedAtDesc c8Store = false :=
  ⟨rfl, by decide⟩

/-- Claim C8 as amended: the remote path passes the server's response
through unchanged (the request asks the server for updatedAt-descending
order), while the local fallback returns the stored collection exactly
as kept — new notes at the front, updates in place — without re-sorting
it by updatedAt. -/
theorem c8_amended (e : String) (ns store : List Note) (lf : Bool) :
    getNotes (RemoteOutcome.ok ns) lf store = Except.ok ns ∧
    getNotes (RemoteOutcome.fail e) false store = Except.ok store ∧
    getNotes (RemoteOutcome.fail e) true store = Except.ok [] :=
  ⟨rfl, rfl, rfl⟩

theorem jsFindIndex_eq_none_of {α : Type} {p : α → Bool} {l : List α}
    (h : ∀ x ∈ l, ¬p x = true) : jsFindIndex p l = none := by
  induction l with
  | nil => rfl
  | cons a as ih =>
      have ha : ¬p a = true := h a (List.mem_cons_self a as)
      simp only [jsFindIndex, if_neg ha, Option.map_eq_none']
      exact ih fun x hx => h x (List.mem_cons_of_mem a hx)

theorem jsFindIndex_isSome {α : Type} {p : α → Bool} {l : List α} {x : α}
    (hx : x ∈ l) (hp : p x = true) : ∃ i, jsFindIndex p l = some i := by
  induction l with
  | nil => exact absurd hx (List.not_mem_nil x)
  | cons a as ih =>
      by_cases ha : p a = true
      · exact ⟨0, by simp [jsFindIndex, ha]⟩
      · have hxs : x ∈ as := by
          rcases List.mem_cons.mp hx with rfl | hxs
          · exact absurd hp ha
          · exact hxs
        obtain ⟨j, hj⟩ := ih hxs
        exact ⟨j + 1, by simp [jsFindIndex, ha, hj]⟩

theorem stampNote_id_of_isSome {n : Note} (now : Nat) (fid : String)
    (h : n.id.isSome) : (stampNote now fid n).id = n.id := by
  rcases n with ⟨nid, nt, nc, ntg, ncr, nup, nsrc⟩
  rcases nid with _ | v
  · simp at h
  · rcases ncr with _ | c <;> simp [stampNote]

theorem stampNote_updatedAt (now : Nat) (fid : String) (n : Note) :
    (stampNote now fid n).updatedAt = some now := by
  rcases n with ⟨nid, nt, nc, ntg, ncr, nup, nsrc⟩
  rcases nid with _ | v <;> rcases ncr with _ | c <;> simp [stampNote]

theorem stampNote_createdAt_of_some {n : Note} {c : Nat} (now : Nat)
    (fid : String) (h : n.createdAt = some c) :
    (stampNote now fid n).createdAt = some c := by
  rcases n with ⟨nid, nt, nc, ntg, ncr, nup, nsrc⟩
  simp only at h
  subst h
  rcases nid with _ | v <;> simp [stampNote]

theorem stampNote_eq_self_of {n : Note} {now : Nat} (fid : String)
    (h1 : n.id.isSome) (h2 : n.createdAt.isSome)
    (h3 : n.updatedAt = some now) : stampNote now fid n = n := by
  rcases n with ⟨nid, nt, nc, ntg, ncr, nup, nsrc⟩
  simp only at h1 h2 h3
  subst h3
  rcases nid with _ | v
  · simp at h1
  · rcases ncr with _ | c
    · simp at h2
    · simp [stampNote]

theorem stampNote_newPageNote (now : Nat) (fid : String) (d : SelectionData) :
    stampNote now fid (newPageNote now fid d) = newPageNote now fid d :=
  stampNote_eq_self_of fid rfl rfl rfl

theorem handleAdd_local_create (now : Nat) (fid eg es : String)
    (d : SelectionData) (store : List Note)
    (hnone : store.find? (isPageNoteFor d.url) = none)
    (hfresh : ∀ n ∈ store, ¬n.id = some fid) :
    handleAddSelectionToPageNote now fid (RemoteOutcome.fail eg)
        (RemoteOutcome.fail es) false d store =
      Except.ok (newPageNote now fid d, newPageNote now fid d :: store) := by
  have hidx : jsFindIndex
      (fun m => m.id == (newPageNote now fid d).id) store = none := by
    refine jsFindIndex_eq_none_of fun x hx => ?_
    simpa using hfresh x hx
  simp only [handleAddSelectionToPageNote, getNotes, hnone, saveNote,
    saveNoteToStorage, Bool.false_eq_true, if_false, stampNote_stampNote,
    stampNote_newPageNote, hidx]

theorem handleAdd_local_append (now : Nat) (fid eg es : String)
    (d : SelectionData) (store : List Note) (ex : Note)
    (hfound : store.find? (isPageNoteFor d.url) = some ex)
    (hid : ex.id.isSome) :
    ∃ i, jsFindIndex (fun m => m.id == ex.id) store = some i ∧
      handleAddSelectionToPageNote now fid (RemoteOutcome.fail eg)
          (RemoteOutcome.fail es) false d store =
        Except.ok (stampNote now fid (appendSelection now d ex),
          store.set i (stampNote now fid (appendSelection now d ex))) := by
  have hmem : ex ∈ store := List.mem_of_find?_eq_some hfound
  obtain ⟨i, hi⟩ := jsFindIndex_isSome (p := fun m => m.id == ex.id) hmem
    (by simp)
  refine ⟨i, hi, ?_⟩
  have hselfid : { appendSelection now d ex with id := ex.id } =
      appendSelection now d ex := rfl
  have hsid : (stampNote now fid (appendSelection now d ex)).id = ex.id :=
    stampNote_id_of_isSome now fid (n := appendSelection now d ex) hid
  simp only [handleAddSelectionToPageNote, getNotes, hfound, updateNote,
    hselfid, saveNote_fail, saveNoteToStorage, Bool.false_eq_true, if_false,
    stampNote_stampNote, hsid, hi]

/-- Claim C1: an ADD_SELECTION_TO_PAGE_NOTE request first fetches all
notes through the backend, searches them for an existing note whose
`source.url` equals the request url and whose tags contain "web-page";
when one exists the handler appends the timestamped HTML-escaped
selection block to its content and updates it in place, and otherwise
it creates a new note — seeded with the escaped page title and url plus
the first escaped selection block, tagged `["web-page", domain]` — and
persists it at the front of the store. Shown here on the local-fallback
path, where the whole effect is in the repository; the find/append/
create logic is the same whichever store answered the fetch. -/
theorem c1_add_selection_algorithm (now : Nat) (fid eg es : String)
    (d : SelectionData) (store : List Note)
    (hwf : ∀ n ∈ store, n.id.isSome)
    (hfresh : ∀ n ∈ store, ¬n.id = some fid) :
    (∀ ex, store.find? (isPageNoteFor d.url) = some ex →
      ∃ i, jsFindIndex (fun m => m.id == ex.id) store = some i ∧
        handleAddSelectionToPageNote now fid (RemoteOutcome.fail eg)
            (RemoteOutcome.fail es) false d store =
          Except.ok (stampNote now fid (appendSelection now d ex),
            store.set i (stampNote now fid (appendSelection now d ex)))) ∧
    (store.find? (isPageNoteFor d.url) = none →
      handleAddSelectionToPageNote now fid (RemoteOutcome.fail eg)
          (RemoteOutcome.fail es) false d store =
        Except.ok (newPageNote now fid d, newPageNote now fid d :: store)) ∧
    (newPageNote now fid d).tags = ["web-page", d.domain] ∧
    (newPageNote now fid d).title = "Page Notes: " ++ escapeHtml d.title ∧
    (newPageNote now fid d).content =
      pageSeed d ++ selectionBlock now d.selectedText := by
  refine ⟨?_, ?_, rfl, rfl, rfl⟩
  · intro ex hfound
    exact handleAdd_local_append now fid eg es d store ex hfound
      (hwf ex (List.mem_of_find?_eq_some hfound))
  · intro hnone
    exact handleAdd_local_create now fid eg es d store hnone hfresh

/-- Witness for C1 at a concrete input: capturing the specification's
example selection on an empty store creates the page note. -/
theorem c1_witness :
    handleAddSelectionToPageNote 5 "id1" (RemoteOutcome.fail "net")
        (RemoteOutcome.fail "net") false exampleCapture [] =
      Except.ok (newPageNote 5 "id1" exampleCapture,
        [newPageNote 5 "id1" exampleCapture]) :=
  (c1_add_selection_algorithm 5 "id1" "net" "net" exampleCapture []
    (by simp) (by simp)).2.1 rfl

/-- Claim C2: two sequential ADD_SELECTION_TO_PAGE_NOTE requests for
the same url (starting from a store holding no page note for that url)
leave exactly one page note for the url; the second request appends to
the note created by the first — same id, content holding both selection
blocks in call order — rather than creating a new note. -/
theorem c2_sequential_captures (now1 now2 : Nat) (fid1 fid2 e1 e2 e3 e4 : String)
    (d1 d2 : SelectionData) (store : List Note)
    (hurl : d1.url = d2.url)
    (hnone : store.find? (isPageNoteFor d1.url) = none)
    (hfresh : ∀ n ∈ store, ¬n.id = some fid1) :
    handleAddSelectionToPageNote now1 fid1 (RemoteOutcome.fail e1)
        (RemoteOutcome.fail e2) false d1 store =
      Except.ok (newPageNote now1 fid1 d1, newPageNote now1 fid1 d1 :: store) ∧
    handleAddSelectionToPageNote now2 fid2 (RemoteOutcome.fail e3)
        (RemoteOutcome.fail e4) false d2 (newPageNote now1 fid1 d1 :: store) =
      Except.ok (appendSelection now2 d2 (newPageNote now1 fid1 d1),
        appendSelection now2 d2 (newPageNote now1 fid1 d1) :: store) ∧
    (appendSelection now2 d2 (newPageNote now1 fid1 d1)).id =
      (newPageNote now1 fid1 d1).id ∧
    (appendSelection now2 d2 (newPageNote now1 fid1 d1)).content =
      pageSeed d1 ++ selectionBlock now1 d1.selectedText ++
        selectionBlock now2 d2.selectedText ∧
    List.countP (isPageNoteFor d2.url)
      (appendSelection now2 d2 (newPageNote now1 fid1 d1) :: store) = 1 := by
  have hpage : isPageNoteFor d2.url (newPageNote now1 fid1 d1) = true := by
    simp [isPageNoteFor, newPageNote, hurl]
  refine ⟨handleAdd_local_create now1 fid1 e1 e2 d1 store hnone hfresh,
    ?_, rfl, rfl, ?_⟩
  · have hfound : (newPageNote now1 fid1 d1 :: store).find?
        (isPageNoteFor d2.url) = some (newPageNote now1 fid1 d1) :=
      List.find?_cons_of_pos store hpage
    have hstamp : stampNote now2 fid2
        (appendSelection now2 d2 (newPageNote now1 fid1 d1)) =
        appendSelection now2 d2 (newPageNote now1 fid1 d1) :=
      stampNote_eq_self_of fid2 rfl rfl rfl
    have hselfid : { appendSelection now2 d2 (newPageNote now1 fid1 d1) with
        id := (newPageNote now1 fid1 d1).id } =
        appendSelection now2 d2 (newPageNote now1 fid1 d1) := rfl
    have hidx : jsFindIndex
        (fun m => m.id ==
          (appendSelection now2 d2 (newPageNote now1 fid1 d1)).id)
        (newPageNote now1 fid1 d1 :: store) = some 0 := by
      simp [jsFindIndex, appendSelection]
    simp only [handleAddSelectionToPageNote, getNotes, hfound, updateNote,
      hselfid, saveNote_fail, saveNoteToStorage, Bool.false_eq_true, if_false,
      stampNote_stampNote, hstamp, hidx, List.set_cons_zero]
  · have hcount0 : List.countP (isPageNoteFor d2.url) store = 0 := by
      rw [List.countP_eq_zero]
      intro a ha
      have := List.find?_eq_none.mp hnone a ha
      rw [hurl] at this
      exact this
    simp [List.countP_cons, hcount0,
      show isPageNoteFor d2.url
        (appendSelection now2 d2 (newPageNote now1 fid1 d1)) = true by
      simpa [isPageNoteFor, appendSelection] using hpage]

/-- Witness for C2 at a concrete input: the example capture followed by
a second capture of "More text" on the same url, from the empty store. -/
theorem c2_witness :
    handleAddSelectionToPageNote 9 "p2" (RemoteOutcome.fail "c")
        (RemoteOutcome.fail "d") false exampleCapture2
        (newPageNote 2 "p1" exampleCapture :: []) =
      Except.ok (appendSelection 9 exampleCapture2
          (newPageNote 2 "p1" exampleCapture),
        appendSelection 9 exampleCapture2
          (newPageNote 2 "p1" exampleCapture) :: []) ∧
    List.countP (isPageNoteFor exampleCapture2.url)
      (appendSelection 9 exampleCapture2
        (newPageNote 2 "p1" exampleCapture) :: []) = 1 :=
  ⟨(c2_sequential_captures 2 9 "p1" "p2" "a" "b" "c" "d" exampleCapture
      exampleCapture2 [] rfl rfl (by simp)).2.1,
   (c2_sequential_captures 2 9 "p1" "p2" "a" "b" "c" "d" exampleCapture
      exampleCapture2 [] rfl rfl (by simp)).2.2.2.2⟩

theorem asyncReply_is_async {α : Type} (f : α → RespData) (store : List Note)
    (r : Except String (α × List Note)) :
    ∃ x s2, asyncReply f store r = (Reply.async x, s2) := by
  match r with
  | Except.ok (a, s) => exact ⟨Except.ok (f a), s, rfl⟩
  | Except.error e => exact ⟨Except.error e, store, rfl⟩

/-- The claim of C5 at the message type SETTINGS_UPDATED: the listener's
switch has no case for it, so it falls to the `default` branch and gets
the synchronous `{success:false}` reply — not an asynchronous
`{success, data | error}` reply as claimed. -/
theorem c5_counterexample :
    dispatch sampleEnv Msg.settingsUpdated [sampleNote] =
      (Reply.syncUnknown, [sampleNote]) := rfl

/-- Claim C5 as amended: the listener handles exactly seven enumerated
request types (SAVE_NOTE, UPDATE_NOTE, ADD_SELECTION_TO_PAGE_NOTE,
GET_NOTES, DELETE_NOTE, SEARCH_NOTES, CHECK_URL_ENABLED), each with
exactly one asynchronous `{success, data | error}` reply in which every
handler exception is converted to `{success:false, error}`; any other
type — including SETTINGS_UPDATED, which the options page sends — gets
the explicit synchronous `{success:false}` reply, so no reply is left
dangling. -/
theorem c5_amended (env : Env) (store : List Note) :
    (∀ data : Note, ∃ r s2,
      dispatch env (Msg.save data) store = (Reply.async r, s2)) ∧
    (∀ (noteId : Option String) (data : Note), ∃ r s2,
      dispatch env (Msg.update noteId data) store = (Reply.async r, s2)) ∧
    (∀ d : SelectionData, ∃ r s2,
      dispatch env (Msg.addSelection d) store = (Reply.async r, s2)) ∧
    (∃ r s2, dispatch env Msg.getAll store = (Reply.async r, s2)) ∧
    (∀ noteId : String, ∃ r s2,
      dispatch env (Msg.delete noteId) store = (Reply.async r, s2)) ∧
    (∀ q : String, ∃ r s2,
      dispatch env (Msg.search q) store = (Reply.async r, s2)) ∧
    (∀ url : String, dispatch env (Msg.checkUrl url) store =
      (Reply.async (Except.ok (RespData.urlEnabled true)), store)) ∧
    dispatch env Msg.settingsUpdated store = (Reply.syncUnknown, store) ∧
    (∀ t : String, dispatch env (Msg.unknown t) store =
      (Reply.syncUnknown, store)) := by
  refine ⟨fun data => asyncReply_is_async RespData.note store _,
    fun noteId data => asyncReply_is_async RespData.note store _,
    fun d => asyncReply_is_async RespData.note store _,
    ?_, ?_, ?_, fun url => rfl, rfl, fun t => rfl⟩
  · cases h : getNotes env.remoteList env.localFail store with
    | ok ns => exact ⟨Except.ok (RespData.notes ns), store,
        by simp [dispatch, h]⟩
    | error e => exact ⟨Except.error e, store, by simp [dispatch, h]⟩
  · intro noteId
    cases h : deleteNote env.remoteDelete env.localFail noteId store with
    | ok s2 => exact ⟨Except.ok (RespData.deleted noteId), s2,
        by simp [dispatch, h]⟩
    | error e => exact ⟨Except.error e, store, by simp [dispatch, h]⟩
  · intro q
    cases h : searchNotes env.remoteSearch env.remoteList env.localFail q
        store with
    | ok ns => exact ⟨Except.ok (RespData.notes ns), store,
        by simp [dispatch, h]⟩
    | error e => exact ⟨Except.error e, store, by simp [dispatch, h]⟩

/-- The claim of C6 at a concrete input: an UPDATE_NOTE whose payload
carries `createdAt = 100` written at time 5 (remote unreachable, local
healthy) succeeds and stores the payload's createdAt verbatim, leaving
a note with `updatedAt` (5) strictly before `createdAt` (100). -/
theorem c6_counterexample :
    updateNote 5 "fid0" (RemoteOutcome.fail "net") false (some "n1")
        futurePayload [] = Except.ok (futureStored, [futureStored]) ∧
    futureStored.createdAt = some 100 ∧
    futureStored.updatedAt = some 5 ∧
    futureStored.updatedAt.getD 0 < futureStored.createdAt.getD 0 :=
  ⟨rfl, rfl, rfl, by decide⟩

theorem stampNote_wf (now : Nat) (fid : String) (note : Note)
    (hc : ∀ c, note.createdAt = some c → c ≤ now) :
    NoteWF (stampNote now fid note) := by
  rcases note with ⟨nid, nt, ncnt, ntg, ncr, nup, nsrc⟩
  rcases nid with _ | v <;> rcases ncr with _ | c
  · exact ⟨rfl, now, now, rfl, rfl, Nat.le_refl now⟩
  · exact ⟨rfl, c, now, rfl, rfl, hc c rfl⟩
  · exact ⟨rfl, now, now, rfl, rfl, Nat.le_refl now⟩
  · exact ⟨rfl, c, now, rfl, rfl, hc c rfl⟩

/-- Claim C6 as amended: the timestamp and id discipline holds for
every write whose payload does not claim a creation time later than the
write clock — which is the case for all in-repo callers, since they
echo previously persisted notes under a monotone clock. Local writes
through `saveNoteToStorage` preserve store well-formedness
(id present, `createdAt ≤ updatedAt`), set `updatedAt` to the time of
the write, keep an already-present `createdAt`, and keep an
already-present id; the web app's hook fixes both timestamps at
creation and its update refreshes only `updatedAt`, changing no id and
no `createdAt`. The raw UPDATE_NOTE protocol, however, copies a
caller-supplied `createdAt` verbatim (see the counterexample). -/
theorem c6_amended :
    (∀ (now : Nat) (fid : String) (note : Note) (store : List Note)
        (n2 : Note) (store2 : List Note),
      StoreWF store →
      (∀ c, note.createdAt = some c → c ≤ now) →
      saveNoteToStorage now fid false note store = Except.ok (n2, store2) →
      StoreWF store2 ∧ n2.updatedAt = some now ∧
      (∀ c, note.createdAt = some c → n2.createdAt = some c) ∧
      (∀ i, note.id = some i → n2.id = some i)) ∧
    (∀ (now : Nat) (uuid title content : String) (notes : List Note),
      StoreWF notes →
      StoreWF (webCreateNote now uuid title content notes).2 ∧
      (webCreateNote now uuid title content notes).1.createdAt = some now ∧
      (webCreateNote now uuid title content notes).1.updatedAt = some now) ∧
    (∀ (now : Nat) (id : String) (t? c? : Option String)
        (tg? : Option (List String)) (notes : List Note),
      StoreWF notes →
      (∀ n ∈ notes, ∀ c, n.createdAt = some c → c ≤ now) →
      StoreWF (webUpdateNote now id t? c? tg? notes) ∧
      (webUpdateNote now id t? c? tg? notes).map Note.id =
        notes.map Note.id ∧
      (webUpdateNote now id t? c? tg? notes).map Note.createdAt =
        notes.map Note.createdAt) := by
  refine ⟨?_, ?_, ?_⟩
  · intro now fid note store n2 store2 hwf hc hsave
    simp only [saveNoteToStorage, Bool.false_eq_true, if_false] at hsave
    have hwfn : NoteWF (stampNote now fid note) := stampNote_wf now fid note hc
    cases hidx : jsFindIndex
        (fun m => m.id == (stampNote now fid note).id) store with
    | some i =>
        rw [hidx] at hsave
        simp only [Except.ok.injEq, Prod.mk.injEq] at hsave
        obtain ⟨rfl, rfl⟩ := hsave
        refine ⟨?_, stampNote_updatedAt now fid note,
          fun c h => stampNote_createdAt_of_some now fid h,
          fun i h => by
            rw [stampNote_id_of_isSome now fid (by simp [h])]; exact h⟩
        intro m hm
        rcases List.mem_or_eq_of_mem_set hm with hmem | rfl
        · exact hwf m hmem
        · exact hwfn
    | none =>
        rw [hidx] at hsave
        simp only [Except.ok.injEq, Prod.mk.injEq] at hsave
        obtain ⟨rfl, rfl⟩ := hsave
        refine ⟨?_, stampNote_updatedAt now fid note,
          fun c h => stampNote_createdAt_of_some now fid h,
          fun i h => by
            rw [stampNote_id_of_isSome now fid (by simp [h])]; exact h⟩
        intro m hm
        rcases List.mem_cons.mp hm with rfl | hmem
        · exact hwfn
        · exact hwf m hmem
  · intro now uuid title content notes hwf
    refine ⟨?_, rfl, rfl⟩
    intro m hm
    rcases List.mem_cons.mp hm with rfl | hmem
    · exact ⟨rfl, now, now, rfl, rfl, Nat.le_refl now⟩
    · exact hwf m hmem
  · intro now id t? c? tg? notes hwf hclock
    refine ⟨?_, ?_, ?_⟩
    · intro m hm
      simp only [webUpdateNote, List.mem_map] at hm
      obtain ⟨x, hx, rfl⟩ := hm
      by_cases hxid : (x.id == some id) = true
      · obtain ⟨hids, c, u, hcx, hux, hcu⟩ := hwf x hx
        simp only [if_pos hxid]
        exact ⟨hids, c, now, hcx, rfl, hclock x hx c hcx⟩
      · simp only [if_neg hxid]
        exact hwf x hx
    · simp only [webUpdateNote, List.map_map]
      congr 1
      funext x
      by_cases hxid : (x.id == some id) = true <;>
        simp [Function.comp, hxid]
    · simp only [webUpdateNote, List.map_map]
      congr 1
      funext x
      by_cases hxid : (x.id == some id) = true <;>
        simp [Function.comp, hxid]

/-- Witness for the amended C6 at a concrete input: saving a fresh
draft at time 3 into the empty local store yields a well-formed store
whose note is stamped with `updatedAt = 3`. -/
theorem c6_amended_witness :
    StoreWF [stampNote 3 "w0" wDraft] ∧
    (stampNote 3 "w0" wDraft).updatedAt = some 3 := by
  have h := c6_amended.1 3 "w0" wDraft [] (stampNote 3 "w0" wDraft)
    [stampNote 3 "w0" wDraft]
    (fun n hn => absurd hn (List.not_mem_nil n))
    (fun c hc => by simp [wDraft] at hc) rfl
  exact ⟨h.1, h.2.1⟩

/-- Claim C9: once the agent's capture routine dispatches (or even
merely attempts) an ADD_SELECTION_TO_PAGE_NOTE, the capture affordance
is hidden on every execution path, and whenever the message was
actually sent — whether the reply reports success, reports failure,
never arrives within the timeout, or the channel errors — the `finally`
block additionally clears the native text selection. -/
theorem c9_capture_cleanup (st : AgentState)
    (nativeSel pageUrl pageTitle pageDomain : String)
    (chromeAvailable contextValid : Bool) (outcome : DispatchOutcome) :
    (addSelectionToPageNoteAgent st nativeSel pageUrl pageTitle pageDomain
      chromeAvailable contextValid outcome).tooltipVisible = false ∧
    ((addSelectionToPageNoteAgent st nativeSel pageUrl pageTitle pageDomain
        chromeAvailable contextValid outcome).sent = true →
      (addSelectionToPageNoteAgent st nativeSel pageUrl pageTitle pageDomain
        chromeAvailable contextValid outcome).nativeSelection = "") := by
  rcases st with ⟨tv, stx⟩
  rcases tv <;>
    simp only [addSelectionToPageNoteAgent, hideSelectionTooltip] <;>
    split_ifs <;> simp_all

/-- Witness for C9 at a concrete input: a dispatched capture whose
reply times out still ends with the tooltip hidden and the selection
cleared. -/
theorem c9_witness :
    (addSelectionToPageNoteAgent ⟨true, "old"⟩ "Hello" "u" "t" "d" true true
      DispatchOutcome.timeout).tooltipVisible = false ∧
    (addSelectionToPageNoteAgent ⟨true, "old"⟩ "Hello" "u" "t" "d" true true
      DispatchOutcome.timeout).nativeSelection = "" :=
  ⟨(c9_capture_cleanup ⟨true, "old"⟩ "Hello" "u" "t" "d" true true
      DispatchOutcome.timeout).1,
    (c9_capture_cleanup ⟨true, "old"⟩ "Hello" "u" "t" "d" true true
      DispatchOutcome.timeout).2 rfl⟩

/-- Claim C10: an UPDATE_NOTE whose noteId is absent from the local
store while the remote is unreachable does not fail with not-found: the
payload (under the requested id, stamped) is inserted at the front of
the local collection, and the coordinator replies `{success:true}` with
the stored note. -/
theorem c10_update_upserts (now : Nat) (fid e noteId : String) (data : Note)
    (store : List Note) (rl rs : RemoteOutcome (List Note))
    (rd : RemoteOutcome Unit)
    (habs : ∀ n ∈ store, ¬n.id = some noteId) :
    updateNote now fid (RemoteOutcome.fail e) false (some noteId) data store =
      Except.ok (stampNote now fid { data with id := some noteId },
        stampNote now fid { data with id := some noteId } :: store) ∧
    (stampNote now fid { data with id := some noteId }).id = some noteId ∧
    dispatch ⟨now, fid, RemoteOutcome.fail e, rl, rs, rd, false⟩
        (Msg.update (some noteId) data) store =
      (Reply.async (Except.ok (RespData.note
          (stampNote now fid { data with id := some noteId }))),
        stampNote now fid { data with id := some noteId } :: store) := by
  have hid : (stampNote now fid { data with id := some noteId }).id =
      some noteId :=
    stampNote_id_of_isSome now fid (n := { data with id := some noteId }) rfl
  have hidx : jsFindIndex (fun m =>
      m.id == (stampNote now fid { data with id := some noteId }).id)
      store = none := by
    refine jsFindIndex_eq_none_of fun x hx => ?_
    rw [hid]
    simpa using habs x hx
  have h1 : updateNote now fid (RemoteOutcome.fail e) false (some noteId)
      data store =
      Except.ok (stampNote now fid { data with id := some noteId },
        stampNote now fid { data with id := some noteId } :: store) := by
    simp only [updateNote, saveNote_fail, saveNoteToStorage,
      Bool.false_eq_true, if_false, stampNote_stampNote, hidx]
  exact ⟨h1, hid, by simp [dispatch, asyncReply, h1]⟩

/-- Witness for C10 at a concrete input: updating the unknown id "zz"
on the empty store (remote down) succeeds and inserts the note. -/
theorem c10_witness :
    updateNote 4 "g" (RemoteOutcome.fail "net") false (some "zz") draftA [] =
      Except.ok (stampNote 4 "g" { draftA with id := some "zz" },
        [stampNote 4 "g" { draftA with id := some "zz" }]) :=
  (c10_update_upserts 4 "g" "net" "zz" draftA [] (RemoteOutcome.fail "x")
    (RemoteOutcome.fail "x") (RemoteOutcome.fail "x")
    (fun n hn => absurd hn (List.not_mem_nil n))).1

end Notez
